import Mathlib

/-!
A shallow embedding of the authentication / OAuth-account-linking core of the
Career-Mate backend (`career_mate_backend`), together with proofs and
refutations of the frozen specification claims.

Conventions of the embedding:
* MongoDB collections are modelled as Lean lists of records; `find_one`
  becomes `List.find?`, `update_one` keyed on `_id` becomes a pointwise
  update of the records carrying that id (`_id` carries a unique index, so
  on reachable states this coincides with "update the first match").
* `datetime.utcnow()` is passed in explicitly as a `Nat` parameter `now`
  (seconds); `timedelta(seconds = k)` becomes `+ k`.
* Python exceptions become `Except`-style results carried next to the
  post-state, so that writes performed before a raise stay visible.
* Cryptographic primitives from outside the repository (HMAC-SHA256,
  SHA-256, Fernet) are idealised: a MAC digest is modelled as the pair of
  the key string and the message (an ideal MAC is collision-free), and
  Fernet authenticated encryption as a tagged ciphertext that only the
  matching key can open.  The key-derivation recipes applied to them are
  translated literally from the source.
-/

namespace CareerMate

/-- MongoDB ObjectId, modelled as a natural number. -/
abbrev OId := Nat

/-- Python truthiness of an optional string (`None` and `""` are falsy). -/
def strTruthy : Option String → Bool
  | none => false
  | some s => !(s == "")

/-! ### Ideal models of the external cryptographic primitives -/

/-- Digest of an ideal keyed MAC (HMAC-SHA256 in the source): determined by,
and determining, the key and the message. -/
structure MacDigest where
  key : String
  message : String
deriving DecidableEq, Repr

/-- Idealised HMAC-SHA256: `hmac.new(key, msg, sha256).hexdigest()`. -/
def hmacSha256 (key msg : String) : MacDigest := ⟨key, msg⟩

/-- Digest of an ideal unkeyed hash (SHA-256 hexdigest in the source). -/
structure Sha256Digest where
  input : String
deriving DecidableEq, Repr

/-- Idealised `hashlib.sha256(s.encode()).hexdigest()`. -/
def sha256Hex (s : String) : Sha256Digest := ⟨s⟩

/-- Key material of the idealised Fernet cipher (derived in the source from
`secret_key` and `salt` via PBKDF2-HMAC; the KDF is idealised as the pair). -/
structure FernetKey where
  secret : String
  salt : String
deriving DecidableEq, Repr

/-- A string presented to `decrypt_token`: either an honest Fernet token
produced under some key, or malformed input that fails base64 decoding or
the authenticator check. -/
inductive Ciphertext where
  | valid (key : FernetKey) (plaintext : String)
  | malformed (raw : String)
deriving DecidableEq, Repr

/-- `SecurityException` raised by the token security module. -/
structure SecurityException where
  msg : String
deriving DecidableEq, Repr

/-! ### `oauth_token_security.py` — `TokenSecurityManager` -/

/-- The per-process secrets of `TokenSecurityManager` (environment variables
`OAUTH_TOKEN_SECRET_KEY` / `OAUTH_TOKEN_SALT`, or freshly generated). -/
structure TokenSecurityConfig where
  secret_key : String
  salt : String
deriving DecidableEq, Repr

/-- The context component of the HMAC key: `provider or 'oauth'`
(`None` and the empty string are falsy in Python). -/
def providerContext : Option String → String
  | none => "oauth"
  | some p => if p == "" then "oauth" else p

/-- `TokenSecurityManager.hash_token`: HMAC-SHA256 keyed with
`f"{self.secret_key}:{provider or 'oauth'}"` over the token. -/
def hash_token (cfg : TokenSecurityConfig) (token : String)
    (provider : Option String) : MacDigest :=
  hmacSha256 (cfg.secret_key ++ ":" ++ providerContext provider) token

/-- `TokenSecurityManager.encrypt_token`: Fernet encryption under the
derived key. -/
def encrypt_token (cfg : TokenSecurityConfig) (token : String) : Ciphertext :=
  .valid ⟨cfg.secret_key, cfg.salt⟩ token

/-- `TokenSecurityManager.decrypt_token`: on any failure (bad base64,
failed Fernet authentication, wrong key) the except-branch raises
`SecurityException("Failed to decrypt token")`. -/
def decrypt_token (cfg : TokenSecurityConfig) (ct : Ciphertext) :
    Except SecurityException String :=
  match ct with
  | .valid k m =>
      if k = ⟨cfg.secret_key, cfg.salt⟩ then .ok m
      else .error ⟨"Failed to decrypt token"⟩
  | .malformed _ => .error ⟨"Failed to decrypt token"⟩

/-- Body of `TokenSecurityManager.verify_token_hash` as a function of the
outcome of the inner `self.hash_token(...)` call: the `try` block compares
the computed digest against the stored one with `hmac.compare_digest`, and
the `except` branch (which also catches the `SecurityException` that
`hash_token` raises on a crypto failure) logs and returns `False`. -/
def verify_token_hash_body (hashOutcome : Except SecurityException MacDigest)
    (stored : MacDigest) : Bool :=
  match hashOutcome with
  | .ok computed => computed == stored
  | .error _ => false

/-- `TokenSecurityManager.verify_token_hash` on the path where the inner
hash computation succeeds. -/
def verify_token_hash (cfg : TokenSecurityConfig) (token : String)
    (stored : MacDigest) (provider : Option String) : Bool :=
  verify_token_hash_body (.ok (hash_token cfg token provider)) stored

/-- The record assembled by
`TokenSecurityManager.create_secure_token_record`. -/
structure TokenRecord where
  access_token_hash : MacDigest
  refresh_token_hash : Option MacDigest
  provider : String
  expires_at : Nat
  created_at : Nat
  last_used : Nat
  scopes : List String
  is_active : Bool
deriving DecidableEq, Repr

/-- `TokenSecurityManager.create_secure_token_record`: hashes the access
token under the provider context and, `if refresh_token:` is truthy, the
refresh token under the `f"{provider}_refresh"` context. -/
def create_secure_token_record (cfg : TokenSecurityConfig) (token : String)
    (provider : String) (expires_in : Nat) (refresh_token : Option String)
    (scopes : Option (List String)) (now : Nat) : TokenRecord :=
  { access_token_hash := hash_token cfg token (some provider)
    refresh_token_hash :=
      match refresh_token with
      | some rt =>
          if rt == "" then none
          else some (hash_token cfg rt (some (provider ++ "_refresh")))
      | none => none
    provider := provider
    expires_at := now + expires_in
    created_at := now
    last_used := now
    scopes := scopes.getD []
    is_active := true }

/-- `TokenSecurityManager.is_token_expired` for a session record (in this
model `expires_at` is always present; a missing value would count as
expired in the source). -/
def is_token_expired (now : Nat) (expires_at : Nat) : Bool :=
  expires_at ≤ now

/-! ### `db.py` — email fingerprints -/

/-- Python `str.lower` restricted to its ASCII action, applied per
character (email addresses; `Char.toLower` maps `A`–`Z` and leaves every
other character unchanged). -/
def strLower (s : String) : String := ⟨s.data.map Char.toLower⟩

/-- `db.hash_email`: SHA-256 over the lower-cased email followed by the
application salt (`EMAIL_SALT`, default `careermate_default_salt_2024`). -/
def hash_email (salt : String) (email : String) : Sha256Digest :=
  sha256Hex (strLower email ++ salt)

/-! ### Data model (documents of the MongoDB collections) -/

/-- The OAuth provider claims carried around as `oauth_data` (the fields the
linking code reads: `id` is the provider subject id, `email` the
provider-claimed address, absent or empty when the provider exposes none). -/
structure OAuthData where
  id : String
  email : Option String
deriving DecidableEq, Repr

/-- One entry of a user's `oauth_providers` mapping: the provider claims
plus the `linked_at` timestamp added when the link is persisted. -/
structure ProviderLink where
  data : OAuthData
  linked_at : Nat
deriving DecidableEq, Repr

/-- A document of the `users` collection (the fields the linking and
session code reads; profile fields are omitted). -/
structure User where
  id : OId
  email_hash : Sha256Digest
  password : Option String
  oauth_providers : List (String × ProviderLink)
  login_methods : List String
  updated_at : Option Nat := none
deriving DecidableEq, Repr

/-- A document of the `oauth_sessions` collection (a provider session;
`client_info` and the capped `activity_log` array are opaque metadata and
omitted). -/
structure Session where
  id : OId
  user_id : OId
  provider : String
  provider_user_id : String
  access_token_hash : MacDigest
  refresh_token_hash : Option MacDigest
  expires_at : Nat
  created_at : Nat
  last_used : Nat
  scopes : List String
  is_active : Bool
  revoked_at : Option Nat := none
  revocation_reason : Option String := none
  expired_at : Option Nat := none
  expiration_reason : Option String := none
deriving DecidableEq, Repr

/-- A document of the `oauth_linking_sessions` collection. -/
structure LinkingSession where
  id : OId
  user_id : OId
  provider : String
  oauth_data : OAuthData
  created_at : Nat
  expires_at : Nat
  status : String
  email_verified : Bool
  password_verified : Bool
  completed : Bool
  cancelled : Bool
  email_verification_attempts : Nat
  password_verification_attempts : Nat
  email_verification_code : Option String := none
  email_verification_expires_at : Option Nat := none
  email_verification_sent_at : Option Nat := none
  email_verified_at : Option Nat := none
  password_verified_at : Option Nat := none
  expired : Bool := false
  expired_at : Option Nat := none
  expiration_reason : Option String := none
  completed_at : Option Nat := none
  cancelled_at : Option Nat := none
  cancellation_reason : Option String := none
deriving DecidableEq, Repr

/-- An audit document (`oauth_audit_log` / `oauth_linking_audit`); the
`details` / `client_info` dictionaries are opaque and omitted. -/
structure AuditEntry where
  user_id : OId
  action : String
  provider : Option String := none
  timestamp : Nat
  session_id : Option OId := none
deriving DecidableEq, Repr

/-- The persistent store: the collections touched by the modelled code. -/
structure DB where
  users : List User
  oauth_sessions : List Session
  oauth_linking_sessions : List LinkingSession
  oauth_audit_log : List AuditEntry := []
  oauth_linking_audit : List AuditEntry := []
deriving DecidableEq, Repr

/-! ### Dictionary and collection helpers -/

/-- Python dict lookup `d.get(k)` on an association list. -/
def dictGet (d : List (String × α)) (k : String) : Option α :=
  (d.find? (fun p => p.1 == k)).map (fun p => p.2)

/-- Python dict assignment `d[k] = v` (also Mongo `$set` on the dotted path
`oauth_providers.{k}`): replaces the entry if the key is present, appends
otherwise. -/
def dictSet (d : List (String × α)) (k : String) (v : α) : List (String × α) :=
  if d.any (fun p => p.1 == k) then
    d.map (fun p => if p.1 == k then (k, v) else p)
  else d ++ [(k, v)]

/-- Mongo `$addToSet`. -/
def addToSet (l : List String) (x : String) : List String :=
  if l.contains x then l else l ++ [x]

/-- Mongo `update_one` keyed on `_id`: `_id` carries a unique index, so the
single matching document is updated; on list states this is the pointwise
update of every record with that id. -/
def updateById (key : α → OId) (sid : OId) (f : α → α) (l : List α) : List α :=
  l.map (fun x => if key x == sid then f x else x)

/-- Whether the `$set` of `update_one` actually modified the stored
document (`result.modified_count > 0`). -/
def updModified [DecidableEq α] (key : α → OId) (sid : OId) (f : α → α)
    (l : List α) : Bool :=
  l.any (fun x => key x == sid && decide (f x ≠ x))

/-- `find_one(sort=[('created_at', 1)])` over a list of session documents:
the least `created_at`, earliest stored document on ties. -/
def findOldest : List Session → Option Session
  | [] => none
  | x :: xs =>
      some (xs.foldl (fun b s => if s.created_at < b.created_at then s else b) x)

/-! ### `oauth_errors.py` — error taxonomy -/

/-- `OAuthErrorType` enumeration. -/
inductive OAuthErrorType where
  | cancelled | userDenied
  | networkError | timeout
  | providerError | providerUnavailable | invalidProvider
  | invalidToken | tokenExpired | tokenValidationFailed
  | accountConflict | linkingError | unlinkingError | accountNotFound
  | configError | missingCredentials
  | unknownError | internalError
deriving DecidableEq, Repr

/-- `OAUTH_ERROR_MESSAGES` defaults (the entries the modelled code can
reach). -/
def defaultMessage : OAuthErrorType → String
  | .linkingError => "Failed to link your account. Please try again."
  | .accountNotFound => "Account not found. Please sign up first."
  | .internalError => "Internal server error. Please try again later."
  | _ => "An unexpected error occurred. Please try again."

/-- An `OAuthException`: error type and message; when the generic handler
re-wraps an inner exception (`original_error`), the inner message is kept
in `original_message`. The structured `details` dict is omitted. -/
structure OAuthExn where
  error_type : OAuthErrorType
  message : String
  original_message : Option String := none
deriving DecidableEq, Repr

/-- Whether an operation outcome is a raised exception. -/
def isErr : Except OAuthExn α → Bool
  | .error _ => true
  | .ok _ => false

/-- `OAuthException(LINKING_ERROR, message=msg)`. -/
def linkingErr (msg : String) : OAuthExn :=
  { error_type := .linkingError, message := msg }

/-- `OAuthException(t)` with the default message of the error type. -/
def defaultExn (t : OAuthErrorType) : OAuthExn :=
  { error_type := t, message := defaultMessage t }

/-- The re-wrapped exception produced by a generic
`except Exception as e: raise OAuthException(LINKING_ERROR, ...,
original_error=e)` handler around an inner `OAuthException`. -/
def wrappedLinkingErr (inner : String) : OAuthExn :=
  { error_type := .linkingError, message := defaultMessage .linkingError,
    original_message := some inner }

/-! ### `oauth_session_manager.py` — `OAuthSessionManager` -/

/-- `OAuthSessionManager.max_sessions_per_user`. -/
def max_sessions_per_user : Nat := 10

/-- The predicate of the active-session queries: `user_id`, `provider`,
`is_active: True`. -/
def sessionActiveFor (uid : OId) (provider : String) (s : Session) : Bool :=
  s.user_id == uid && s.provider == provider && s.is_active

/-- Number of active sessions of a (user, provider) pair
(`count_documents` in `_enforce_session_limits`). -/
def activeCount (db : DB) (uid : OId) (provider : String) : Nat :=
  (db.oauth_sessions.filter (sessionActiveFor uid provider)).length

/-- The `$set` applied by `OAuthSessionManager.revoke_session`. -/
def revokeUpd (now : Nat) (reason : String) (s : Session) : Session :=
  { s with is_active := false, revoked_at := some now,
           revocation_reason := some reason }

/-- `OAuthSessionManager.revoke_session`: looks the session up by id with
no liveness filter, applies the `$set` unconditionally, and returns `True`
iff `modified_count > 0` (appending the audit entry in that case). The
in-memory `token_security_manager.revoke_token(session)` call mutates only
the local dict and is not persisted. -/
def revoke_session (db : DB) (now : Nat) (sid : OId) (reason : String) :
    DB × Bool :=
  match db.oauth_sessions.find? (fun s => s.id == sid) with
  | none => (db, false)
  | some session =>
      let sessions' := updateById Session.id sid (revokeUpd now reason)
        db.oauth_sessions
      if updModified Session.id sid (revokeUpd now reason) db.oauth_sessions then
        ({ db with oauth_sessions := sessions',
                   oauth_audit_log := db.oauth_audit_log ++
                     [{ user_id := session.user_id, action := "session_revoked",
                        timestamp := now, session_id := some sid }] }, true)
      else
        ({ db with oauth_sessions := sessions' }, false)

/-- The `$set` applied by `OAuthSessionManager._expire_session`. -/
def expireSessionUpd (now : Nat) (reason : String) (s : Session) : Session :=
  { s with is_active := false, expired_at := some now,
           expiration_reason := some reason }

/-- `OAuthSessionManager._expire_session`. -/
def _expire_session (db : DB) (now : Nat) (sid : OId) (reason : String) : DB :=
  let sessions' := updateById Session.id sid (expireSessionUpd now reason)
    db.oauth_sessions
  { db with oauth_sessions := sessions' }

/-- `OAuthSessionManager._update_session_activity` (the capped
`activity_log` push is omitted along with the field). -/
def _update_session_activity (db : DB) (now : Nat) (sid : OId) : DB :=
  let upd : Session → Session := fun s => { s with last_used := now }
  { db with oauth_sessions := updateById Session.id sid upd db.oauth_sessions }

/-- `OAuthSessionManager.get_session`: finds the active session of the
pair, lazily expires it (reason `token_expired`) when past `expires_at`,
otherwise touches `last_used` and returns it. -/
def get_session (db : DB) (now : Nat) (uid : OId) (provider : String) :
    DB × Option Session :=
  match db.oauth_sessions.find? (sessionActiveFor uid provider) with
  | none => (db, none)
  | some s =>
      if is_token_expired now s.expires_at then
        (_expire_session db now s.id "token_expired", none)
      else
        (_update_session_activity db now s.id, some s)

/-- `OAuthSessionManager._enforce_session_limits`: when the pair already
has `max_sessions_per_user` (or more) active sessions, revokes the oldest
one with reason `session_limit_exceeded`. -/
def _enforce_session_limits (db : DB) (now : Nat) (uid : OId)
    (provider : String) : DB :=
  if max_sessions_per_user ≤ activeCount db uid provider then
    match findOldest (db.oauth_sessions.filter (sessionActiveFor uid provider)) with
    | some oldest => (revoke_session db now oldest.id "session_limit_exceeded").1
    | none => db
  else db

/-- `OAuthSessionManager.create_session`: builds the secure token record,
enforces the session cap, inserts the new session document and appends the
audit entry. `newId` is the freshly generated `ObjectId()`. -/
def create_session (db : DB) (now : Nat) (cfg : TokenSecurityConfig)
    (newId : OId) (uid : OId) (provider provider_user_id : String)
    (access_token : String) (refresh_token : Option String)
    (expires_in : Nat) (scopes : Option (List String)) : DB × Session :=
  let tr := create_secure_token_record cfg access_token provider expires_in
    refresh_token scopes now
  let sdoc : Session :=
    { id := newId, user_id := uid, provider := provider,
      provider_user_id := provider_user_id,
      access_token_hash := tr.access_token_hash,
      refresh_token_hash := tr.refresh_token_hash,
      expires_at := tr.expires_at, created_at := tr.created_at,
      last_used := tr.last_used, scopes := tr.scopes,
      is_active := tr.is_active }
  let db1 := _enforce_session_limits db now uid provider
  let db2 := { db1 with oauth_sessions := db1.oauth_sessions ++ [sdoc] }
  let db3 := { db2 with oauth_audit_log := db2.oauth_audit_log ++
    [{ user_id := uid, action := "session_created", timestamp := now,
       session_id := some newId }] }
  (db3, sdoc)

/-! ### `account_merger.py` — `AccountMerger` -/

/-- Whether a user document matches the dotted query
`oauth_providers.{provider}.id == psid`. -/
def hasProviderWithId (u : User) (provider psid : String) : Bool :=
  match dictGet u.oauth_providers provider with
  | some link => link.data.id == psid
  | none => false

/-- `AccountMerger.can_link_provider`: `False` when the user does not
exist; when the provider slot is already occupied, `True` only for the same
subject id; otherwise `True` iff no user at all holds this
(provider, subject-id) pair. -/
def can_link_provider (db : DB) (uid : OId) (provider psid : String) : Bool :=
  match db.users.find? (fun u => u.id == uid) with
  | none => false
  | some user =>
      match dictGet user.oauth_providers provider with
      | some link => link.data.id == psid
      | none =>
          (db.users.find? (fun u => hasProviderWithId u provider psid)).isNone

/-- The user update applied by `AccountMerger.link_oauth_provider`:
`$set oauth_providers.{provider}` and `updated_at`, `$addToSet
login_methods`. -/
def linkUpd (provider : String) (od : OAuthData) (now : Nat) (u : User) : User :=
  { u with oauth_providers := dictSet u.oauth_providers provider ⟨od, now⟩,
           updated_at := some now,
           login_methods := addToSet u.login_methods provider }

/-- `AccountMerger.link_oauth_provider`: refuses (raising) when
`can_link_provider` fails, otherwise persists the link and reports
`modified_count > 0`. The refusal `OAuthException` is caught by the
function's own generic `except Exception` handler and re-raised as a
`LINKING_ERROR` with the default message, the original message kept as
`original_error`. -/
def link_oauth_provider (db : DB) (now : Nat) (uid : OId) (provider : String)
    (od : OAuthData) : DB × Except OAuthExn Bool :=
  if !(can_link_provider db uid provider od.id) then
    (db, .error (wrappedLinkingErr ("Cannot link " ++ provider ++
      " account - already linked to another user")))
  else
    let users' := updateById User.id uid (linkUpd provider od now) db.users
    let modified := updModified User.id uid (linkUpd provider od now) db.users
    ({ db with users := users' }, .ok modified)

/-! ### `oauth_account_linking.py` — `AccountLinkingSecurityManager` -/

/-- `AccountLinkingSecurityManager.verification_timeout` (5 minutes). -/
def verification_timeout : Nat := 300

/-- `AccountLinkingSecurityManager.max_verification_attempts`. -/
def max_verification_attempts : Nat := 3

/-- `AccountLinkingSecurityManager.linking_session_timeout` (15 minutes). -/
def linking_session_timeout : Nat := 900

/-- Outcome of `AccountLinkingSecurityManager._verify_provider_identity`
(the result dict collapsed to its `verified` / `details.reason` content). -/
inductive IdentityVerification where
  | ok (provider_email : String)
  | noEmail
  | emailMismatch
  | alreadyLinkedElsewhere
deriving DecidableEq, Repr

/-- `AccountLinkingSecurityManager._verify_provider_identity`: requires a
truthy provider email whose fingerprint matches the current user's, then
refuses when some user with a different email fingerprint already holds
this (provider, subject-id) pair. -/
def _verify_provider_identity (salt : String) (db : DB) (provider : String)
    (od : OAuthData) (user_email_hash : Sha256Digest) : IdentityVerification :=
  match od.email with
  | none => .noEmail
  | some pe =>
      if pe == "" then .noEmail
      else if hash_email salt pe ≠ user_email_hash then .emailMismatch
      else if (db.users.find? (fun u => hasProviderWithId u provider od.id &&
          decide (u.email_hash ≠ user_email_hash))).isSome then
        .alreadyLinkedElsewhere
      else .ok pe

/-- `AccountLinkingSecurityManager._get_linking_session`: the session is
returned only when `expires_at > now` and it is neither completed nor
cancelled. -/
def _get_linking_session (db : DB) (now : Nat) (sid : OId) :
    Option LinkingSession :=
  db.oauth_linking_sessions.find? (fun t =>
    t.id == sid && now < t.expires_at && !t.completed && !t.cancelled)

/-- The `$set` of `AccountLinkingSecurityManager._expire_linking_session`
(note: `expires_at`, `completed`, `cancelled` and the attempt counters are
left untouched). -/
def expireLinkingUpd (now : Nat) (reason : String) (t : LinkingSession) :
    LinkingSession :=
  { t with expired := true, expired_at := some now,
           expiration_reason := some reason, status := "expired" }

/-- `AccountLinkingSecurityManager._expire_linking_session`. -/
def _expire_linking_session (db : DB) (now : Nat) (sid : OId)
    (reason : String) : DB :=
  let sessions' := updateById LinkingSession.id sid
    (expireLinkingUpd now reason) db.oauth_linking_sessions
  { db with oauth_linking_sessions := sessions' }

/-- `AccountLinkingSecurityManager._log_linking_activity`. -/
def _log_linking_activity (db : DB) (now : Nat) (uid : OId)
    (action provider : String) : DB :=
  { db with oauth_linking_audit := db.oauth_linking_audit ++
      [{ user_id := uid, action := action, provider := some provider,
         timestamp := now }] }

/-- The recomputed verification requirements
(`AccountLinkingSecurityManager._check_verification_status`, flattened):
email verification is always required; password verification is required
iff `bool(user.get('password'))`. -/
structure VerificationStatus where
  all_verified : Bool
  email_required : Bool
  email_completed : Bool
  password_required : Bool
  password_completed : Bool
deriving DecidableEq, Repr

/-- `AccountLinkingSecurityManager._check_verification_status` given the
(found) owning user document. -/
def _check_verification_status (user : User) (t : LinkingSession) :
    VerificationStatus :=
  let email_required := true
  let password_required := strTruthy user.password
  let email_verified := t.email_verified
  let password_verified := t.password_verified
  { all_verified := (!email_required || email_verified) &&
      (!password_required || password_verified),
    email_required := email_required, email_completed := email_verified,
    password_required := password_required,
    password_completed := password_verified }

/-- `AccountLinkingSecurityManager._get_next_verification_step`. In the
source a missing owning user would raise an `AttributeError` inside
`_check_verification_status`; the claims below are stated on states where
the user exists, so that branch is collapsed to `none`. -/
def _get_next_verification_step (db : DB) (sid : OId) : Option String :=
  match db.oauth_linking_sessions.find? (fun t => t.id == sid) with
  | none => none
  | some t =>
      match db.users.find? (fun u => u.id == t.user_id) with
      | none => none
      | some user =>
          let vs := _check_verification_status user t
          if vs.email_required && !vs.email_completed then
            some "email_verification"
          else if vs.password_required && !vs.password_completed then
            some "password_verification"
          else if vs.all_verified then some "complete_linking"
          else none

/-- Result payload of `verify_email_for_linking`. -/
structure EmailVerifyResult where
  email_verified : Bool
  message : String
  next_step : Option String
deriving DecidableEq, Repr

/-- `AccountLinkingSecurityManager.verify_email_for_linking`; guards, in
source order: live session, attempt limit (expiring the session on its
violation), code present, code sub-expiry, constant-time code comparison
(incrementing the counter on mismatch). -/
def verify_email_for_linking (db : DB) (now : Nat) (sid : OId)
    (code : String) : DB × Except OAuthExn EmailVerifyResult :=
  match _get_linking_session db now sid with
  | none => (db, .error (linkingErr "Invalid or expired linking session"))
  | some s =>
      if max_verification_attempts ≤ s.email_verification_attempts then
        (_expire_linking_session db now s.id "max_attempts_exceeded",
         .error (linkingErr
           "Maximum verification attempts exceeded. Please start over."))
      else
        match s.email_verification_code, s.email_verification_expires_at with
        | some stored, some cexp =>
            if stored == "" then
              (db, .error (linkingErr "Email verification not initiated"))
            else if cexp < now then
              (db, .error (linkingErr "Email verification code has expired"))
            else if !(stored == code) then
              let upd : LinkingSession → LinkingSession := fun t =>
                { t with email_verification_attempts :=
                    t.email_verification_attempts + 1 }
              let sessions' := updateById LinkingSession.id s.id upd
                db.oauth_linking_sessions
              ({ db with oauth_linking_sessions := sessions' },
               .error (linkingErr "Invalid verification code"))
            else
              let upd : LinkingSession → LinkingSession := fun t =>
                { t with email_verified := true,
                         email_verified_at := some now }
              let sessions' := updateById LinkingSession.id s.id upd
                db.oauth_linking_sessions
              let db1 := { db with oauth_linking_sessions := sessions' }
              let db2 := _log_linking_activity db1 now s.user_id
                "email_verified" s.provider
              let res : EmailVerifyResult :=
                { email_verified := true,
                  message := "Email verification successful",
                  next_step := _get_next_verification_step db2 s.id }
              (db2, .ok res)
        | _, _ =>
            (db, .error (linkingErr "Email verification not initiated"))

/-- The mail handed to `utils.helpers.send_email`: the recipient is
`oauth_data.get('email')` of the linking session (the provider-claimed
address; the account record stores no plaintext address at all) and the
body embeds the verification code. -/
structure SentMail where
  to_email : Option String
  code : String
deriving DecidableEq, Repr

/-- Result payload of `send_email_verification`. -/
structure SendEmailResult where
  email_sent : Bool
  email : Option String
  expires_at : Nat
deriving DecidableEq, Repr

/-- Outcome of `send_email_verification`: post-state, the dispatches
handed to the mailer, and the returned payload or raised exception. -/
structure SendOutcome where
  db : DB
  sent : List SentMail
  result : Except OAuthExn SendEmailResult
deriving Repr

/-- `AccountLinkingSecurityManager._generate_verification_code`: six
digits, one `secrets.randbelow(10)` draw each; the random draws are the
`digits` argument. -/
def _generate_verification_code (digits : Fin 6 → Fin 10) : String :=
  ⟨(List.finRange 6).map (fun i => Char.ofNat (48 + (digits i).val))⟩

/-- The `$set` applied by `send_email_verification`: the three code fields
and nothing else — in particular `email_verification_attempts` is not
touched. -/
def emailCodeUpd (code : String) (expires now : Nat) (t : LinkingSession) :
    LinkingSession :=
  { t with email_verification_code := some code,
           email_verification_expires_at := some expires,
           email_verification_sent_at := some now }

/-- `AccountLinkingSecurityManager.send_email_verification`: stores a
fresh code with a `verification_timeout` (5-minute) sub-expiry on the live
session, then dispatches it to the provider-claimed email; a failed
dispatch raises, with the stored code already persisted. `emailOk` is the
boolean returned by the external `send_email`. -/
def send_email_verification (db : DB) (now : Nat) (sid : OId)
    (digits : Fin 6 → Fin 10) (emailOk : Bool) : SendOutcome :=
  match _get_linking_session db now sid with
  | none =>
      ⟨db, [], .error (linkingErr "Invalid or expired linking session")⟩
  | some s =>
      let code := _generate_verification_code digits
      let expires := now + verification_timeout
      let sessions' := updateById LinkingSession.id s.id
        (emailCodeUpd code expires now) db.oauth_linking_sessions
      let db1 := { db with oauth_linking_sessions := sessions' }
      let mail : SentMail := ⟨s.oauth_data.email, code⟩
      let res : SendEmailResult :=
        { email_sent := true, email := s.oauth_data.email,
          expires_at := expires }
      if emailOk then
        ⟨db1, [mail], .ok res⟩
      else
        ⟨db1, [mail],
         .error (linkingErr "Failed to send verification email")⟩

/-- Result payload of `complete_account_linking` (unreachable in the
source, see `complete_account_linking`). -/
structure CompleteResult where
  success : Bool
  provider : String
deriving DecidableEq, Repr

/-- `AccountLinkingSecurityManager.complete_account_linking`: recomputes
the required steps from the account record via
`_check_verification_status` and raises before any write when one is
unsatisfied. When all steps are satisfied it persists the provider link
and then calls `models.create_oauth_session` with `mongo={'db': self.db}`;
the session manager then operates on a plain dict, every collection access
raises `AttributeError`, `create_session` converts it to an
`INTERNAL_ERROR` `OAuthException`, and that exception propagates out of
`complete_account_linking` — the remaining steps (marking the linking
session completed, audit, success payload) are unreachable. -/
def complete_account_linking (db : DB) (now : Nat) (sid : OId) :
    DB × Except OAuthExn CompleteResult :=
  match _get_linking_session db now sid with
  | none => (db, .error (linkingErr "Invalid or expired linking session"))
  | some s =>
      match db.users.find? (fun u => u.id == s.user_id) with
      | none => (db, .error (defaultExn .linkingError))
      | some user =>
          let vs := _check_verification_status user s
          if !vs.all_verified then
            (db, .error (linkingErr
              "Not all verification requirements have been met"))
          else
            match link_oauth_provider db now s.user_id s.provider
                s.oauth_data with
            | (db1, .error e) => (db1, .error e)
            | (db1, .ok success) =>
                if !success then
                  (db1, .error (linkingErr
                    ("Failed to link " ++ s.provider ++ " account")))
                else
                  (db1, .error (defaultExn .internalError))

/-- `db.find_user_by_email`: looks the account up by the fingerprint of
the given address. -/
def find_user_by_email (salt : String) (db : DB) (email : String) :
    Option User :=
  db.users.find? (fun u => u.email_hash == hash_email salt email)

/-! ### General lemmas about the collection helpers -/

theorem char_toNat_ofNat_valid {n : Nat} (h : n.isValidChar) :
    (Char.ofNat n).toNat = n := by
  simp [Char.ofNat, dif_pos h, Char.ofNatAux, Char.toNat, UInt32.toNat,
    UInt32.ofNat', BitVec.toNat_ofNatLt]

theorem char_toLower_idem (c : Char) : c.toLower.toLower = c.toLower := by
  unfold Char.toLower
  by_cases h : c.toNat ≥ 65 ∧ c.toNat ≤ 90
  · rw [if_pos h]
    have hval : (c.toNat + 32).isValidChar := Or.inl (by omega)
    rw [char_toNat_ofNat_valid hval, if_neg (by omega)]
  · rw [if_neg h, if_neg h]

theorem strLower_idem (s : String) : strLower (strLower s) = strLower s := by
  have hcomp : Char.toLower ∘ Char.toLower = Char.toLower :=
    funext char_toLower_idem
  simp [strLower, List.map_map, hcomp]

theorem find?_cons_pos {α : Type} (p : α → Bool) {x : α} (xs : List α)
    (h : p x = true) : (x :: xs).find? p = some x := by
  simp [List.find?, h]

theorem find?_cons_neg {α : Type} (p : α → Bool) {x : α} (xs : List α)
    (h : p x = false) : (x :: xs).find? p = xs.find? p := by
  simp [List.find?, h]

theorem find?_updateById_eq {α : Type} (key : α → OId) (sid : OId)
    (f : α → α) (l : List α) (a : α)
    (hf : l.find? (fun x => key x == sid) = some a)
    (hkey : key (f a) = key a) :
    (updateById key sid f l).find? (fun x => key x == sid) = some (f a) := by
  induction l with
  | nil => simp at hf
  | cons x xs ih =>
      by_cases hx : (key x == sid) = true
      · rw [find?_cons_pos (fun y => key y == sid) xs hx] at hf
        cases hf
        simp only [updateById, List.map_cons, if_pos hx]
        exact find?_cons_pos (fun y => key y == sid) _
          (by simp [hkey, eq_of_beq hx])
      · rw [find?_cons_neg (fun y => key y == sid) xs (by simpa using hx)] at hf
        simp only [updateById, List.map_cons, if_neg hx]
        rw [find?_cons_neg (fun y => key y == sid) _ (by simpa using hx)]
        exact ih hf

theorem find?_updateById_of_ne {α : Type} (key : α → OId) (sid : OId)
    (f : α → α) (l : List α) (p : α → Bool)
    (hp : ∀ x, key x = sid → p x = false ∧ p (f x) = false) :
    (updateById key sid f l).find? p = l.find? p := by
  induction l with
  | nil => rfl
  | cons x xs ih =>
      simp only [updateById, List.map_cons]
      by_cases hx : (key x == sid) = true
      · have hx' : key x = sid := eq_of_beq hx
        rw [if_pos hx, find?_cons_neg p _ ((hp x hx').2),
          find?_cons_neg p _ ((hp x hx').1)]
        exact ih
      · rw [if_neg hx]
        by_cases hpx : p x = true
        · rw [find?_cons_pos p _ hpx, find?_cons_pos p _ hpx]
        · rw [find?_cons_neg p _ (by simpa using hpx),
            find?_cons_neg p _ (by simpa using hpx)]
          exact ih

theorem mem_updateById_self {α : Type} (key : α → OId) (sid : OId)
    (f : α → α) (l : List α) (a : α) (ha : a ∈ l) (hkey : key a = sid) :
    f a ∈ updateById key sid f l := by
  have : (if key a == sid then f a else a) ∈ updateById key sid f l :=
    List.mem_map_of_mem _ ha
  rwa [if_pos (by simp [hkey])] at this

theorem length_filter_flip {α : Type} (key : α → OId) (l : List α)
    (hnd : (l.map key).Nodup) (a : α) (ha : a ∈ l) (p q : α → Bool)
    (hother : ∀ b ∈ l, key b ≠ key a → p b = q b)
    (hsame : ∀ b ∈ l, key b = key a → p b = true ∧ q b = false) :
    (l.filter p).length = (l.filter q).length + 1 := by
  induction l with
  | nil => simp at ha
  | cons x xs ih =>
      rw [List.map_cons, List.nodup_cons] at hnd
      by_cases hx : key x = key a
      · have hpq := hsame x (List.mem_cons_self _ _) hx
        have hxs : ∀ b ∈ xs, p b = q b := by
          intro b hb
          refine hother b (List.mem_cons_of_mem _ hb) ?_
          intro hb'
          exact hnd.1 (by rw [hx, ← hb']; exact List.mem_map_of_mem _ hb)
        rw [List.filter_cons_of_pos (by simp [hpq.1]),
          List.filter_cons_of_neg (by simp [hpq.2]),
          List.filter_congr hxs]
        simp
      · have hax : a ∈ xs := by
          rcases List.mem_cons.mp ha with h | h
          · exact absurd (by rw [h]) hx
          · exact h
        have hrec := ih hnd.2 hax
          (fun b hb hne => hother b (List.mem_cons_of_mem _ hb) hne)
          (fun b hb he => hsame b (List.mem_cons_of_mem _ hb) he)
        have hpx : p x = q x := hother x (List.mem_cons_self _ _) hx
        by_cases hpxv : p x
        · rw [List.filter_cons_of_pos (by simp [hpxv]),
            List.filter_cons_of_pos (by simp [← hpx, hpxv]),
            List.length_cons, List.length_cons, hrec]
        · rw [List.filter_cons_of_neg (by simp [hpxv]),
            List.filter_cons_of_neg (by simp [← hpx, hpxv]), hrec]

theorem filter_updateById {α : Type} (key : α → OId) (sid : OId)
    (f : α → α) (l : List α) (p : α → Bool) :
    ((updateById key sid f l).filter p).length =
      (l.filter (fun x => p (if key x == sid then f x else x))).length := by
  rw [updateById, List.filter_map, List.length_map]
  rfl

theorem findOldest_min (l : List Session) (hne : l ≠ []) :
    ∃ old, findOldest l = some old ∧ old ∈ l ∧
      ∀ s ∈ l, old.created_at ≤ s.created_at := by
  match l with
  | [] => exact absurd rfl hne
  | x :: xs =>
      have haux : ∀ (ys : List Session) (b : Session),
          (ys.foldl (fun c s => if s.created_at < c.created_at then s else c) b = b ∨
            ys.foldl (fun c s => if s.created_at < c.created_at then s else c) b ∈ ys) ∧
          (ys.foldl (fun c s => if s.created_at < c.created_at then s else c) b).created_at ≤ b.created_at ∧
          ∀ s ∈ ys, (ys.foldl (fun c s => if s.created_at < c.created_at then s else c) b).created_at ≤ s.created_at := by
        intro ys
        induction ys with
        | nil => intro b; exact ⟨Or.inl rfl, Nat.le_refl _, by simp⟩
        | cons y ys ih =>
            intro b
            simp only [List.foldl_cons]
            by_cases hy : y.created_at < b.created_at
            · rw [if_pos hy]
              rcases ih y with ⟨hmem, hle, hall⟩
              refine ⟨?_, ?_, ?_⟩
              · rcases hmem with h | h
                · exact Or.inr (by rw [h]; exact List.mem_cons_self _ _)
                · exact Or.inr (List.mem_cons_of_mem _ h)
              · exact Nat.le_trans hle (Nat.le_of_lt hy)
              · intro s hs
                rcases List.mem_cons.mp hs with h | h
                · rw [h]; exact hle
                · exact hall s h
            · rw [if_neg hy]
              rcases ih b with ⟨hmem, hle, hall⟩
              refine ⟨?_, hle, ?_⟩
              · rcases hmem with h | h
                · exact Or.inl h
                · exact Or.inr (List.mem_cons_of_mem _ h)
              · intro s hs
                rcases List.mem_cons.mp hs with h | h
                · rw [h]; exact Nat.le_trans hle (Nat.le_of_not_lt hy)
                · exact hall s h
      rcases haux xs x with ⟨hmem, hle, hall⟩
      refine ⟨_, rfl, ?_, ?_⟩
      · rcases hmem with h | h
        · rw [h]; exact List.mem_cons_self _ _
        · exact List.mem_cons_of_mem _ h
      · intro s hs
        rcases List.mem_cons.mp hs with h | h
        · rw [h]; exact hle
        · exact hall s h

theorem dictGet_dictSet_self {α : Type} (d : List (String × α)) (k : String)
    (v : α) : dictGet (dictSet d k v) k = some v := by
  by_cases hany : d.any (fun p => p.1 == k) = true
  · rw [dictSet, if_pos hany]
    induction d with
    | nil => simp at hany
    | cons x xs ih =>
        by_cases hx : (x.1 == k) = true
        · simp only [List.map_cons, if_pos hx, dictGet]
          rw [find?_cons_pos (fun r : String × α => r.1 == k) _ (by simp)]
          simp
        · simp only [List.map_cons, if_neg hx, dictGet]
          rw [find?_cons_neg (fun r : String × α => r.1 == k) _ (by simpa using hx)]
          have hany' : xs.any (fun p => p.1 == k) = true := by
            rcases List.any_eq_true.mp hany with ⟨p, hp, hpk⟩
            rcases List.mem_cons.mp hp with h | h
            · exact absurd (h ▸ hpk) (by simpa using hx)
            · exact List.any_eq_true.mpr ⟨p, h, hpk⟩
          exact ih hany'
  · rw [dictSet, if_neg hany]
    rw [List.any_eq_true] at hany
    push_neg at hany
    induction d with
    | nil => simp [dictGet]
    | cons x xs ih =>
        have hx : ((fun p => p.1 == k) x) = false := by
          simpa using hany x (List.mem_cons_self _ _)
        simp only [dictGet, List.cons_append]
        rw [find?_cons_neg (fun r : String × α => r.1 == k) _ hx]
        exact ih (fun p hp => hany p (List.mem_cons_of_mem _ hp))

theorem dictGet_dictSet_ne {α : Type} (d : List (String × α)) (k q : String)
    (v : α) (hq : q ≠ k) : dictGet (dictSet d k v) q = dictGet d q := by
  by_cases hany : d.any (fun p => p.1 == k) = true
  · rw [dictSet, if_pos hany]
    clear hany
    induction d with
    | nil => rfl
    | cons x xs ih =>
        by_cases hx : (x.1 == k) = true
        · have hx' : x.1 = k := eq_of_beq hx
          simp only [List.map_cons, if_pos hx, dictGet]
          rw [find?_cons_neg (fun r : String × α => r.1 == q) _ (by simp [Ne.symm hq]),
            find?_cons_neg (fun r : String × α => r.1 == q) _ (by simp [hx', Ne.symm hq])]
          exact ih
        · simp only [List.map_cons, if_neg hx, dictGet]
          by_cases hxq : (x.1 == q) = true
          · rw [find?_cons_pos (fun r : String × α => r.1 == q) _ hxq,
              find?_cons_pos (fun r : String × α => r.1 == q) _ hxq]
          · rw [find?_cons_neg (fun r : String × α => r.1 == q) _ (by simpa using hxq),
              find?_cons_neg (fun r : String × α => r.1 == q) _ (by simpa using hxq)]
            exact ih
  · rw [dictSet, if_neg hany, dictGet, dictGet]
    clear hany
    induction d with
    | nil => simp [Ne.symm hq]
    | cons x xs ih =>
        simp only [List.cons_append]
        by_cases hxq : (x.1 == q) = true
        · rw [find?_cons_pos (fun r : String × α => r.1 == q) _ hxq,
            find?_cons_pos (fun r : String × α => r.1 == q) _ hxq]
        · rw [find?_cons_neg (fun r : String × α => r.1 == q) _ (by simpa using hxq),
            find?_cons_neg (fun r : String × α => r.1 == q) _ (by simpa using hxq)]
          exact ih

theorem find?_id_eq_of_mem {α : Type} (key : α → OId) (sid : OId)
    (l : List α) (hnd : (l.map key).Nodup) (a : α) (ha : a ∈ l)
    (hka : key a = sid) : l.find? (fun y => key y == sid) = some a := by
  induction l with
  | nil => simp at ha
  | cons x xs ih =>
      rw [List.map_cons, List.nodup_cons] at hnd
      by_cases hx : (key x == sid) = true
      · rw [find?_cons_pos (fun y => key y == sid) xs hx]
        rcases List.mem_cons.mp ha with h | h
        · rw [h]
        · exact absurd (by rw [eq_of_beq hx, ← hka]; exact List.mem_map_of_mem _ h)
            hnd.1
      · rw [find?_cons_neg (fun y => key y == sid) xs (by simpa using hx)]
        rcases List.mem_cons.mp ha with h | h
        · exact absurd (by simp [← h, hka]) hx
        · exact ih hnd.2 h

theorem map_key_updateById {α : Type} (key : α → OId) (sid : OId)
    (f : α → α) (l : List α) (hf : ∀ x, key (f x) = key x) :
    (updateById key sid f l).map key = l.map key := by
  induction l with
  | nil => rfl
  | cons x xs ih =>
      simp only [updateById, List.map_cons] at ih ⊢
      by_cases hx : (key x == sid) = true
      · rw [if_pos hx, hf x, ih]
      · rw [if_neg hx, ih]

theorem updModified_iff_of_nodup {α : Type} [DecidableEq α] (key : α → OId)
    (sid : OId) (f : α → α) (l : List α) (hnd : (l.map key).Nodup) (a : α)
    (ha : a ∈ l) (hka : key a = sid) :
    updModified key sid f l = true ↔ f a ≠ a := by
  rw [updModified, List.any_eq_true]
  constructor
  · rintro ⟨x, hx, hpx⟩
    rcases (Bool.and_eq_true _ _).mp hpx with ⟨hid, hne⟩
    have hxa : x = a := List.inj_on_of_nodup_map hnd hx ha
      (by rw [eq_of_beq hid, hka])
    rw [← hxa]
    exact of_decide_eq_true hne
  · intro hne
    exact ⟨a, ha, by simp [hka, hne]⟩

/-! ### Claim C7 — token hashing: determinism and context separation -/

/-- C7: `hash_token` depends only on the token, the context and the secret
key (the encryption salt plays no role); for every token the digest under
context `google` differs from the digest under context `google_refresh`;
and `create_secure_token_record` built with an identical access and
refresh token stores the refresh digest under the `google_refresh` context,
different from the access digest. -/
theorem C7_hash_token_context_separation
    (cfg cfg' : TokenSecurityConfig) (t : String) (p : Option String)
    (ein now : Nat) (scopes : Option (List String))
    (hsec : cfg.secret_key = cfg'.secret_key) (ht : t ≠ "") :
    hash_token cfg t p = hash_token cfg' t p ∧
    hash_token cfg t (some "google") ≠
      hash_token cfg t (some "google_refresh") ∧
    (create_secure_token_record cfg t "google" ein (some t) scopes
      now).refresh_token_hash =
      some (hash_token cfg t (some "google_refresh")) ∧
    (create_secure_token_record cfg t "google" ein (some t) scopes
      now).access_token_hash ≠
      hash_token cfg t (some "google_refresh") := by
  have hne : hash_token cfg t (some "google") ≠
      hash_token cfg t (some "google_refresh") := by
    intro h
    have hk := congrArg MacDigest.key h
    simp only [hash_token, hmacSha256, providerContext] at hk
    rw [if_neg (by decide), if_neg (by decide)] at hk
    have hlen := congrArg String.length hk
    simp only [String.length_append] at hlen
    have h1 : ("google" : String).length = 6 := rfl
    have h2 : ("google_refresh" : String).length = 14 := rfl
    omega
  refine ⟨by simp [hash_token, hmacSha256, hsec], hne, ?_, ?_⟩
  · have happ : ("google" : String) ++ "_refresh" = "google_refresh" := rfl
    simp only [create_secure_token_record, happ]
    rw [if_neg (by simpa using ht)]
  · have happ : ("google" : String) ++ "_refresh" = "google_refresh" := rfl
    simpa only [create_secure_token_record, happ] using hne

/-- C7 witness: the theorem instantiated at a concrete configuration and
token. -/
theorem C7_hash_token_context_separation_witness :
    hash_token ⟨"sec", "saltA"⟩ "tok" (some "google") =
      hash_token ⟨"sec", "saltB"⟩ "tok" (some "google") ∧
    hash_token ⟨"sec", "saltA"⟩ "tok" (some "google") ≠
      hash_token ⟨"sec", "saltA"⟩ "tok" (some "google_refresh") ∧
    (create_secure_token_record ⟨"sec", "saltA"⟩ "tok" "google" 60
      (some "tok") none 5).refresh_token_hash =
      some (hash_token ⟨"sec", "saltA"⟩ "tok" (some "google_refresh")) ∧
    (create_secure_token_record ⟨"sec", "saltA"⟩ "tok" "google" 60
      (some "tok") none 5).access_token_hash ≠
      hash_token ⟨"sec", "saltA"⟩ "tok" (some "google_refresh") :=
  C7_hash_token_context_separation ⟨"sec", "saltA"⟩ ⟨"sec", "saltB"⟩ "tok"
    (some "google") 60 5 none rfl (by decide)

/-! ### Claim C9 — crypto failure semantics -/

/-- C9 counterexample: when the inner hash computation of
`verify_token_hash` fails with the `SecurityException` that `hash_token`
raises, the function does not propagate it — the except-branch returns the
ordinary boolean `False`. -/
theorem C9_counterexample_verify_swallows_security_error :
    verify_token_hash_body
      (.error ⟨"Failed to hash token securely"⟩)
      (hmacSha256 "key" "token") = false := rfl

/-- C9 (amended): `decrypt_token` applied to malformed ciphertext, or to
ciphertext produced under a different key (tampering), raises the single
`SecurityException` and never returns garbage — any successful decryption
is the honest encryption of the returned plaintext — while
`verify_token_hash` swallows a crypto failure of the inner hash
computation and returns the ordinary boolean `False` instead of raising. -/
theorem C9_crypto_failure_semantics
    (cfg : TokenSecurityConfig) (raw : String) (k : FernetKey) (m : String)
    (hk : k ≠ ⟨cfg.secret_key, cfg.salt⟩) (e : SecurityException)
    (d : MacDigest) (ct : Ciphertext) (tok : String) :
    decrypt_token cfg (.malformed raw) = .error ⟨"Failed to decrypt token"⟩ ∧
    decrypt_token cfg (.valid k m) = .error ⟨"Failed to decrypt token"⟩ ∧
    (decrypt_token cfg ct = .ok tok → ct = encrypt_token cfg tok) ∧
    verify_token_hash_body (.error e) d = false := by
  refine ⟨rfl, by simp [decrypt_token, hk], ?_, rfl⟩
  intro h
  cases ct with
  | valid k' m' =>
      by_cases hk' : k' = ⟨cfg.secret_key, cfg.salt⟩
      · simp [decrypt_token, hk'] at h
        simp [encrypt_token, hk', h]
      · simp [decrypt_token, hk'] at h
  | malformed r => simp [decrypt_token] at h

/-- C9 witness: the amended theorem at a concrete configuration,
tampered ciphertext and failing hash outcome. -/
theorem C9_crypto_failure_semantics_witness :
    decrypt_token ⟨"sec", "salt"⟩ (.malformed "zzz") =
      .error ⟨"Failed to decrypt token"⟩ ∧
    decrypt_token ⟨"sec", "salt"⟩ (.valid ⟨"other", "salt"⟩ "pt") =
      .error ⟨"Failed to decrypt token"⟩ ∧
    (decrypt_token ⟨"sec", "salt"⟩ (.valid ⟨"sec", "salt"⟩ "pt") = .ok "pt" →
      Ciphertext.valid ⟨"sec", "salt"⟩ "pt" =
        encrypt_token ⟨"sec", "salt"⟩ "pt") ∧
    verify_token_hash_body (.error ⟨"Failed to hash token securely"⟩)
      (hmacSha256 "k" "t") = false :=
  C9_crypto_failure_semantics ⟨"sec", "salt"⟩ "zzz" ⟨"other", "salt"⟩ "pt"
    (by decide) ⟨"Failed to hash token securely"⟩ (hmacSha256 "k" "t")
    (.valid ⟨"sec", "salt"⟩ "pt") "pt"

/-! ### Claim C10 — case-insensitive email fingerprint -/

/-- C10: the email fingerprint is case-insensitive — `hash_email` of an
address equals `hash_email` of its lower-cased form, so
`find_user_by_email` resolves two addresses that differ only in letter
case to the same account record. -/
theorem C10_email_fingerprint_case_insensitive
    (salt : String) (db : DB) (e e1 e2 : String)
    (h : strLower e1 = strLower e2) :
    hash_email salt e = hash_email salt (strLower e) ∧
    hash_email salt e1 = hash_email salt e2 ∧
    find_user_by_email salt db e1 = find_user_by_email salt db e2 := by
  have h12 : hash_email salt e1 = hash_email salt e2 := by
    simp [hash_email, h]
  refine ⟨?_, h12, ?_⟩
  · simp [hash_email, strLower_idem]
  · simp [find_user_by_email, h12]

/-- C10 witness: two concrete addresses differing only in letter case. -/
theorem C10_email_fingerprint_case_insensitive_witness :
    hash_email "careermate_default_salt_2024" "User@Example.COM" =
      hash_email "careermate_default_salt_2024"
        (strLower "User@Example.COM") ∧
    hash_email "careermate_default_salt_2024" "User@Example.COM" =
      hash_email "careermate_default_salt_2024" "user@example.com" ∧
    find_user_by_email "careermate_default_salt_2024"
        ⟨[], [], [], [], []⟩ "User@Example.COM" =
      find_user_by_email "careermate_default_salt_2024"
        ⟨[], [], [], [], []⟩ "user@example.com" :=
  C10_email_fingerprint_case_insensitive "careermate_default_salt_2024"
    ⟨[], [], [], [], []⟩ "User@Example.COM" "User@Example.COM"
    "user@example.com" (by decide)

/-! ### Claim C5 — revocation of an already-inactive session -/

/-- A session already revoked at time 100 with reason `user_logout`. -/
def c5Session : Session :=
  { id := 1, user_id := 7, provider := "google", provider_user_id := "g-1",
    access_token_hash := hmacSha256 "k" "t", refresh_token_hash := none,
    expires_at := 1000, created_at := 0, last_used := 0, scopes := [],
    is_active := false, revoked_at := some 100,
    revocation_reason := some "user_logout" }

/-- A store holding only `c5Session`. -/
def c5DB : DB := { users := [], oauth_sessions := [c5Session],
                   oauth_linking_sessions := [] }

/-- C5 counterexample: revoking the already-inactive session again at time
200 with a different reason reports success and overwrites both
`revoked_at` (100 ↦ 200) and `revocation_reason`
(`user_logout` ↦ `admin_revoked`) — it is not a field-preserving no-op. -/
theorem C5_counterexample_revoke_overwrites :
    (revoke_session c5DB 200 1 "admin_revoked").2 = true ∧
    ((revoke_session c5DB 200 1 "admin_revoked").1.oauth_sessions.find?
        (fun s => s.id == 1)).map
        (fun s => (s.revoked_at, s.revocation_reason)) =
      some (some 200, some "admin_revoked") := by
  constructor <;> rfl

/-- C5 (amended): revoking an already-inactive session reports success
whenever the new timestamp or reason differ from the stored ones, and
overwrites `revoked_at` with the new time and `revocation_reason` with the
newly supplied reason; the first revocation's values are not preserved. -/
theorem C5_revoke_inactive_overwrites
    (db : DB) (now : Nat) (sid : OId) (reason : String) (s : Session)
    (hnodup : (db.oauth_sessions.map Session.id).Nodup)
    (hfind : db.oauth_sessions.find? (fun x => x.id == sid) = some s)
    (hinactive : s.is_active = false) :
    ((revoke_session db now sid reason).1.oauth_sessions.find?
        (fun x => x.id == sid)) = some (revokeUpd now reason s) ∧
    ((revoke_session db now sid reason).2 = true ↔
      ¬(s.revoked_at = some now ∧ s.revocation_reason = some reason)) := by
  have hid : (revokeUpd now reason s).id = s.id := rfl
  have hfound := find?_updateById_eq Session.id sid (revokeUpd now reason)
    db.oauth_sessions s hfind hid
  have hsm := List.mem_of_find?_eq_some hfind
  have hska : s.id = sid := by
    simpa using List.find?_some hfind
  have hmod := updModified_iff_of_nodup Session.id sid (revokeUpd now reason)
    db.oauth_sessions hnodup s hsm hska
  have hne : revokeUpd now reason s ≠ s ↔
      ¬(s.revoked_at = some now ∧ s.revocation_reason = some reason) := by
    constructor
    · intro h hc
      apply h
      cases s
      simp_all [revokeUpd]
    · intro h he
      refine h ⟨?_, ?_⟩
      · rw [← he]
        rfl
      · rw [← he]
        rfl
  constructor
  · simp only [revoke_session, hfind]
    by_cases hm : updModified Session.id sid (revokeUpd now reason)
        db.oauth_sessions = true
    · rw [if_pos hm]
      exact hfound
    · rw [if_neg hm]
      exact hfound
  · simp only [revoke_session, hfind]
    by_cases hm : updModified Session.id sid (revokeUpd now reason)
        db.oauth_sessions = true
    · rw [if_pos hm]
      simpa using hne.mp (hmod.mp hm)
    · rw [if_neg hm]
      have hfields : s.revoked_at = some now ∧
          s.revocation_reason = some reason := by
        by_contra hc
        exact hm (hmod.mpr (hne.mpr hc))
      simp [hfields]

/-- C5 witness: the amended theorem applied to the concrete store
`c5DB`. -/
theorem C5_revoke_inactive_overwrites_witness :
    ((revoke_session c5DB 200 1 "admin_revoked").1.oauth_sessions.find?
        (fun x => x.id == 1)) =
      some (revokeUpd 200 "admin_revoked" c5Session) ∧
    ((revoke_session c5DB 200 1 "admin_revoked").2 = true ↔
      ¬(c5Session.revoked_at = some 200 ∧
        c5Session.revocation_reason = some "admin_revoked")) :=
  C5_revoke_inactive_overwrites c5DB 200 1 "admin_revoked" c5Session
    (by decide) (by decide) (by decide)

/-! ### Claim C8 — sending the email verification code -/

/-- A live linking session with two prior failed email attempts. -/
def c8Session : LinkingSession :=
  { id := 2, user_id := 7, provider := "google",
    oauth_data := { id := "g-1", email := some "claimed@mail.example" },
    created_at := 0, expires_at := 900, status := "pending",
    email_verified := false, password_verified := false,
    completed := false, cancelled := false,
    email_verification_attempts := 2, password_verification_attempts := 0 }

/-- A store holding only `c8Session`. -/
def c8DB : DB := { users := [], oauth_sessions := [],
                   oauth_linking_sessions := [c8Session] }

/-- C8 counterexample: a successful `send_email_verification` on a live
session with 2 recorded attempts leaves the attempt counter at 2 — the
counter is not reset, contradicting the claim. -/
theorem C8_counterexample_attempts_not_reset :
    isErr (send_email_verification c8DB 10 2 (fun _ => 0) true).result
      = false ∧
    ((send_email_verification c8DB 10 2 (fun _ => 0)
        true).db.oauth_linking_sessions.find? (fun t => t.id == 2)).map
        (fun t => t.email_verification_attempts) = some 2 := by
  constructor <;> rfl

/-- C8 (amended): a `sendEmailVerification` call on a live linking session
stores a freshly generated 6-digit numeric code with a
`verification_timeout` (5-minute) sub-expiry, hands exactly one mail to
the mailer addressed to the provider-claimed email carrying that code (the
account record holds no plaintext address that could be used instead), and
— unlike the claim states — leaves the email-verification attempt counter
unchanged; on a successful dispatch the call reports success. -/
theorem C8_send_email_verification_behavior
    (db : DB) (now : Nat) (sid : OId) (digits : Fin 6 → Fin 10)
    (emailOk : Bool) (s : LinkingSession)
    (hnodup : (db.oauth_linking_sessions.map LinkingSession.id).Nodup)
    (hlive : _get_linking_session db now sid = some s) :
    (send_email_verification db now sid digits emailOk).sent =
      [⟨s.oauth_data.email, _generate_verification_code digits⟩] ∧
    ((send_email_verification db now sid digits
        emailOk).db.oauth_linking_sessions.find?
        (fun t => t.id == s.id)) = some
      (emailCodeUpd (_generate_verification_code digits)
        (now + verification_timeout) now s) ∧
    (_generate_verification_code digits).length = 6 ∧
    (∀ c ∈ (_generate_verification_code digits).data, c.isDigit = true) ∧
    (emailOk = true →
      (send_email_verification db now sid digits emailOk).result =
        .ok { email_sent := true, email := s.oauth_data.email,
              expires_at := now + verification_timeout }) := by
  have hmem := List.mem_of_find?_eq_some hlive
  have hsid : s.id = sid := by
    have := List.find?_some hlive
    simp only [Bool.and_eq_true, beq_iff_eq] at this
    exact this.1.1.1
  have hfind := find?_id_eq_of_mem LinkingSession.id sid
    db.oauth_linking_sessions hnodup s hmem hsid
  have hupd := find?_updateById_eq LinkingSession.id sid
    (emailCodeUpd (_generate_verification_code digits)
      (now + verification_timeout) now)
    db.oauth_linking_sessions s hfind rfl
  refine ⟨?_, ?_, ?_, ?_, ?_⟩
  · unfold send_email_verification
    rw [hlive]
    cases emailOk <;> rfl
  · unfold send_email_verification
    rw [hlive]
    rw [← hsid] at hupd
    cases emailOk <;> simpa using hupd
  · rfl
  · intro c hc
    simp only [_generate_verification_code, List.mem_map] at hc
    obtain ⟨i, _, hi⟩ := hc
    have hv : ((digits i) : Nat) < 10 := (digits i).isLt
    revert hi
    generalize ((digits i) : Nat) = d at hv
    intro hi
    subst hi
    interval_cases d <;> decide
  · intro hok
    unfold send_email_verification
    rw [hlive, hok]
    rfl

/-- C8 witness: the amended theorem applied to the concrete store `c8DB`
with the all-zero digit draw and a successful dispatch. -/
theorem C8_send_email_verification_behavior_witness :
    (send_email_verification c8DB 10 2 (fun _ => 0) true).sent =
      [⟨c8Session.oauth_data.email, _generate_verification_code (fun _ => 0)⟩] ∧
    ((send_email_verification c8DB 10 2 (fun _ => 0)
        true).db.oauth_linking_sessions.find?
        (fun t => t.id == c8Session.id)) = some
      (emailCodeUpd (_generate_verification_code (fun _ => 0))
        (10 + verification_timeout) 10 c8Session) ∧
    (_generate_verification_code (fun _ => 0)).length = 6 ∧
    (∀ c ∈ (_generate_verification_code (fun _ => 0)).data,
      c.isDigit = true) ∧
    (true = true →
      (send_email_verification c8DB 10 2 (fun _ => 0) true).result =
        .ok { email_sent := true, email := c8Session.oauth_data.email,
              expires_at := 10 + verification_timeout }) :=
  C8_send_email_verification_behavior c8DB 10 2 (fun _ => 0) true c8Session
    (by decide) (by decide)

/-! ### Claim C2 — `complete` recomputes the required steps -/

/-- C2: `complete_account_linking` recomputes the required steps from the
account record itself (email always; password iff the account currently
has a truthy password hash) and fails with the verification-incomplete
error whenever a recomputed required step is not satisfied by the stored
session flags — the caller supplies only the session id, so no
client-claimed completion can influence the check — and in that case the
whole store, in particular the user's `oauth_providers`, is unchanged: no
`ProviderLink` is persisted. -/
theorem C2_complete_recomputes_requirements
    (db : DB) (now : Nat) (sid : OId) (s : LinkingSession) (user : User)
    (hlive : _get_linking_session db now sid = some s)
    (huser : db.users.find? (fun u => u.id == s.user_id) = some user)
    (hmiss : s.email_verified = false ∨
      (strTruthy user.password = true ∧ s.password_verified = false)) :
    complete_account_linking db now sid =
      (db, .error (linkingErr
        "Not all verification requirements have been met")) := by
  have hvs : (_check_verification_status user s).all_verified = false := by
    simp only [_check_verification_status]
    rcases hmiss with h | ⟨h1, h2⟩
    · simp [h]
    · simp [h1, h2]
  simp [complete_account_linking, hlive, huser, hvs]

/-- The account of the C2 witness: it has a password hash, so password
verification is recomputed as required. -/
def c2User : User :=
  { id := 7, email_hash := sha256Hex "u@x.example|salt",
    password := some "bcrypt-hash", oauth_providers := [],
    login_methods := ["email"] }

/-- The linking session of the C2 witness: the email step is completed but
the password step is not. -/
def c2Session : LinkingSession :=
  { id := 3, user_id := 7, provider := "google",
    oauth_data := { id := "g-1", email := some "u@x.example" },
    created_at := 0, expires_at := 900, status := "pending",
    email_verified := true, password_verified := false,
    completed := false, cancelled := false,
    email_verification_attempts := 0, password_verification_attempts := 0 }

/-- The store of the C2 witness. -/
def c2DB : DB := { users := [c2User], oauth_sessions := [],
                   oauth_linking_sessions := [c2Session] }

/-- C2 witness: the account has a password, the stored session has not
completed password verification, so `complete` fails and the store is
untouched. -/
theorem C2_complete_recomputes_requirements_witness :
    complete_account_linking c2DB 10 3 =
      (c2DB, .error (linkingErr
        "Not all verification requirements have been met")) :=
  C2_complete_recomputes_requirements c2DB 10 3 c2Session c2User
    (by decide) (by decide) (Or.inr (by decide))

/-! ### Claim C6 — expired codes and sessions are always rejected -/

/-- C6: (a) `verify_email_for_linking` rejects a code whose recorded
sub-expiry has passed, for every submitted code — including the stored
correct one; (b) a linking session whose `expires_at` has passed is
invisible to `_get_linking_session`, so the state-machine operations
(`verifyEmail`, `complete`, `sendEmailVerification`) reject it without any
state change; (c) `get_session` on a provider session whose `expires_at`
has passed returns absent and marks the record inactive with reason
`token_expired`. -/
theorem C6_expiry_always_rejected :
    (∀ (db : DB) (now sid : Nat) (s : LinkingSession)
      (stored : String) (cexp : Nat) (code : String),
      _get_linking_session db now sid = some s →
      s.email_verification_attempts < max_verification_attempts →
      s.email_verification_code = some stored → stored ≠ "" →
      s.email_verification_expires_at = some cexp → cexp < now →
      verify_email_for_linking db now sid code =
        (db, .error (linkingErr "Email verification code has expired"))) ∧
    (∀ (db : DB) (now sid : Nat),
      (∀ t ∈ db.oauth_linking_sessions, t.id = sid → t.expires_at ≤ now) →
      _get_linking_session db now sid = none ∧
      (∀ code, verify_email_for_linking db now sid code =
        (db, .error (linkingErr "Invalid or expired linking session"))) ∧
      complete_account_linking db now sid =
        (db, .error (linkingErr "Invalid or expired linking session")) ∧
      (∀ (digits : Fin 6 → Fin 10) (emailOk : Bool),
        send_email_verification db now sid digits emailOk =
          ⟨db, [], .error (linkingErr "Invalid or expired linking session")⟩)) ∧
    (∀ (db : DB) (now : Nat) (uid : OId) (provider : String) (s : Session),
      (db.oauth_sessions.map Session.id).Nodup →
      db.oauth_sessions.find? (sessionActiveFor uid provider) = some s →
      s.expires_at ≤ now →
      get_session db now uid provider =
        (_expire_session db now s.id "token_expired", none) ∧
      (((_expire_session db now s.id
          "token_expired").oauth_sessions.find? (fun x => x.id == s.id)).map
          (fun x => (x.is_active, x.expiration_reason))) =
        some (false, some "token_expired")) := by
  refine ⟨?_, ?_, ?_⟩
  · intro db now sid s stored cexp code hlive hatt hcode hstored hcexp hlt
    simp only [verify_email_for_linking, hlive, hcode, hcexp]
    rw [if_neg (by simp only [max_verification_attempts] at hatt ⊢; omega),
      if_neg (by simp [hstored]), if_pos hlt]
  · intro db now sid h
    have hnone : _get_linking_session db now sid = none := by
      rw [_get_linking_session, List.find?_eq_none]
      intro t ht hc
      simp only [Bool.and_eq_true, beq_iff_eq, decide_eq_true_eq] at hc
      have := h t ht hc.1.1.1
      omega
    exact ⟨hnone, fun code => by simp [verify_email_for_linking, hnone],
      by simp [complete_account_linking, hnone],
      fun digits emailOk => by simp [send_email_verification, hnone]⟩
  · intro db now uid provider s hnodup hfind hexp
    have hmem := List.mem_of_find?_eq_some hfind
    have hfindid := find?_id_eq_of_mem Session.id s.id db.oauth_sessions
      hnodup s hmem rfl
    have hupd := find?_updateById_eq Session.id s.id
      (expireSessionUpd now "token_expired")
      db.oauth_sessions s hfindid rfl
    constructor
    · simp only [get_session, hfind]
      rw [if_pos (by simp [is_token_expired, hexp])]
    · simp only [_expire_session]
      rw [hupd]
      rfl

/-- The expired-code linking session of the C6 witness. -/
def c6CodeSession : LinkingSession :=
  { id := 4, user_id := 7, provider := "google",
    oauth_data := { id := "g-1", email := some "u@x.example" },
    created_at := 0, expires_at := 900, status := "pending",
    email_verified := false, password_verified := false,
    completed := false, cancelled := false,
    email_verification_attempts := 0, password_verification_attempts := 0,
    email_verification_code := some "123456",
    email_verification_expires_at := some 5,
    email_verification_sent_at := some 0 }

/-- The past-deadline linking session of the C6 witness. -/
def c6DeadSession : LinkingSession :=
  { id := 5, user_id := 7, provider := "google",
    oauth_data := { id := "g-1", email := some "u@x.example" },
    created_at := 0, expires_at := 5, status := "pending",
    email_verified := true, password_verified := true,
    completed := false, cancelled := false,
    email_verification_attempts := 0, password_verification_attempts := 0,
    email_verification_code := some "123456",
    email_verification_expires_at := some 900 }

/-- The expired provider session of the C6 witness. -/
def c6Session : Session :=
  { id := 6, user_id := 7, provider := "google", provider_user_id := "g-1",
    access_token_hash := hmacSha256 "k" "t", refresh_token_hash := none,
    expires_at := 5, created_at := 0, last_used := 0, scopes := [],
    is_active := true }

/-- The store of the C6 witness. -/
def c6DB : DB :=
  { users := [], oauth_sessions := [c6Session],
    oauth_linking_sessions := [c6CodeSession, c6DeadSession] }

/-- C6 witness: at time 10 the stored sub-expiry 5 of the code has passed
(so even the stored correct code `123456` is rejected), the session with
deadline 5 is rejected by every operation, and the provider session with
`expires_at` 5 is absent and marked inactive. -/
theorem C6_expiry_always_rejected_witness :
    verify_email_for_linking c6DB 10 4 "123456" =
      (c6DB, .error (linkingErr "Email verification code has expired")) ∧
    (_get_linking_session c6DB 10 5 = none ∧
      verify_email_for_linking c6DB 10 5 "123456" =
        (c6DB, .error (linkingErr "Invalid or expired linking session")) ∧
      complete_account_linking c6DB 10 5 =
        (c6DB, .error (linkingErr "Invalid or expired linking session")) ∧
      send_email_verification c6DB 10 5 (fun _ => 0) true =
        ⟨c6DB, [], .error (linkingErr "Invalid or expired linking session")⟩) ∧
    (get_session c6DB 10 7 "google" =
      (_expire_session c6DB 10 6 "token_expired", none) ∧
      (((_expire_session c6DB 10 6
          "token_expired").oauth_sessions.find? (fun x => x.id == 6)).map
          (fun x => (x.is_active, x.expiration_reason))) =
        some (false, some "token_expired")) := by
  refine ⟨?_, ?_, ?_⟩
  · exact C6_expiry_always_rejected.1 c6DB 10 4 c6CodeSession "123456" 5
      "123456" (by decide) (by decide) (by decide) (by decide) (by decide)
      (by decide)
  · have h := C6_expiry_always_rejected.2.1 c6DB 10 5
      (by decide)
    exact ⟨h.1, h.2.1 "123456", h.2.2.1, h.2.2.2 (fun _ => 0) true⟩
  · exact C6_expiry_always_rejected.2.2 c6DB 10 7 "google" c6Session
      (by decide) (by decide) (by decide)

/-! ### Claim C4 — email verification attempt limit -/

/-- C4: (first part) once a live linking session has recorded
`max_verification_attempts` (3) email-code attempts, the next
`verify_email_for_linking` call — whatever code it submits — fails with
the distinct max-attempts error and immediately marks the session expired
(status `expired`, reason `max_attempts_exceeded`), leaving the attempt
counter in place; (second part) on any store whose session with this id
carries at least 3 recorded attempts, every `verify_email_for_linking`
call fails — even with the stored correct code — and leaves the counter at
≥ 3, so all subsequent calls keep failing. -/
theorem C4_email_attempt_limit :
    (∀ (db : DB) (now sid : Nat) (s : LinkingSession) (code : String),
      (db.oauth_linking_sessions.map LinkingSession.id).Nodup →
      _get_linking_session db now sid = some s →
      max_verification_attempts ≤ s.email_verification_attempts →
      verify_email_for_linking db now sid code =
        (_expire_linking_session db now s.id "max_attempts_exceeded",
         .error (linkingErr
           "Maximum verification attempts exceeded. Please start over.")) ∧
      (((_expire_linking_session db now s.id
          "max_attempts_exceeded").oauth_linking_sessions.find?
          (fun t => t.id == s.id)).map
          (fun t => (t.status, t.expired, t.expiration_reason,
            t.email_verification_attempts))) =
        some ("expired", true, some "max_attempts_exceeded",
          s.email_verification_attempts)) ∧
    (∀ (db : DB) (now sid : Nat) (s : LinkingSession) (code : String),
      (db.oauth_linking_sessions.map LinkingSession.id).Nodup →
      db.oauth_linking_sessions.find? (fun t => t.id == sid) = some s →
      max_verification_attempts ≤ s.email_verification_attempts →
      isErr (verify_email_for_linking db now sid code).2 = true ∧
      ((verify_email_for_linking db now sid
          code).1.oauth_linking_sessions.map LinkingSession.id) =
        db.oauth_linking_sessions.map LinkingSession.id ∧
      (∀ t, (verify_email_for_linking db now sid
          code).1.oauth_linking_sessions.find? (fun x => x.id == sid) =
          some t →
        max_verification_attempts ≤ t.email_verification_attempts)) := by
  constructor
  · intro db now sid s code hnodup hlive hatt
    have hmem := List.mem_of_find?_eq_some hlive
    have hsid : s.id = sid := by
      have := List.find?_some hlive
      simp only [Bool.and_eq_true, beq_iff_eq] at this
      exact this.1.1.1
    have hfindid := find?_id_eq_of_mem LinkingSession.id s.id
      db.oauth_linking_sessions hnodup s hmem rfl
    have hupd := find?_updateById_eq LinkingSession.id s.id
      (expireLinkingUpd now "max_attempts_exceeded")
      db.oauth_linking_sessions s hfindid rfl
    constructor
    · simp only [verify_email_for_linking, hlive]
      rw [if_pos hatt]
    · simp only [_expire_linking_session]
      rw [hupd]
      rfl
  · intro db now sid s code hnodup hfind hatt
    have hsmem := List.mem_of_find?_eq_some hfind
    have hsid : s.id = sid := by
      simpa using List.find?_some hfind
    cases hget : _get_linking_session db now sid with
    | none =>
        refine ⟨?_, ?_, ?_⟩
        · simp [verify_email_for_linking, hget, isErr]
        · simp [verify_email_for_linking, hget]
        · intro t ht
          simp only [verify_email_for_linking, hget] at ht
          rw [hfind] at ht
          cases ht
          exact hatt
    | some u =>
        have humem : u ∈ db.oauth_linking_sessions :=
          List.mem_of_find?_eq_some hget
        have huid : u.id = sid := by
          have := List.find?_some hget
          simp only [Bool.and_eq_true, beq_iff_eq] at this
          exact this.1.1.1
        have hus : u = s := List.inj_on_of_nodup_map hnodup humem hsmem
          (by rw [huid, hsid])
        subst hus
        have hfindid := find?_id_eq_of_mem LinkingSession.id u.id
          db.oauth_linking_sessions hnodup u hsmem rfl
        have hupd := find?_updateById_eq LinkingSession.id u.id
          (expireLinkingUpd now "max_attempts_exceeded")
          db.oauth_linking_sessions u hfindid rfl
        refine ⟨?_, ?_, ?_⟩
        · simp only [verify_email_for_linking, hget]
          rw [if_pos hatt]
          rfl
        · simp only [verify_email_for_linking, hget]
          rw [if_pos hatt]
          simp only [_expire_linking_session]
          exact map_key_updateById LinkingSession.id u.id
            (expireLinkingUpd now "max_attempts_exceeded")
            db.oauth_linking_sessions (fun _ => rfl)
        · intro t ht
          simp only [verify_email_for_linking, hget] at ht
          rw [if_pos hatt] at ht
          simp only [_expire_linking_session] at ht
          rw [← hsid] at ht
          rw [hupd] at ht
          cases ht
          exact hatt

/-- The linking session of the C4 witness: live, three recorded wrong
attempts, stored correct code `123456`. -/
def c4Session : LinkingSession :=
  { id := 8, user_id := 7, provider := "google",
    oauth_data := { id := "g-1", email := some "u@x.example" },
    created_at := 0, expires_at := 900, status := "pending",
    email_verified := false, password_verified := false,
    completed := false, cancelled := false,
    email_verification_attempts := 3, password_verification_attempts := 0,
    email_verification_code := some "123456",
    email_verification_expires_at := some 900 }

/-- The store of the C4 witness. -/
def c4DB : DB := { users := [], oauth_sessions := [],
                   oauth_linking_sessions := [c4Session] }

/-- C4 witness: the 4th call (any code) fails with the max-attempts error
and expires the session; on the resulting store even the stored correct
code `123456` keeps failing and the counter stays at ≥ 3. -/
theorem C4_email_attempt_limit_witness :
    (verify_email_for_linking c4DB 10 8 "999999" =
      (_expire_linking_session c4DB 10 8 "max_attempts_exceeded",
       .error (linkingErr
         "Maximum verification attempts exceeded. Please start over.")) ∧
      (((_expire_linking_session c4DB 10 8
          "max_attempts_exceeded").oauth_linking_sessions.find?
          (fun t => t.id == 8)).map
          (fun t => (t.status, t.expired, t.expiration_reason,
            t.email_verification_attempts))) =
        some ("expired", true, some "max_attempts_exceeded", 3)) ∧
    (isErr (verify_email_for_linking
        (_expire_linking_session c4DB 10 8 "max_attempts_exceeded") 20 8
        "123456").2 = true ∧
      ((verify_email_for_linking
          (_expire_linking_session c4DB 10 8 "max_attempts_exceeded") 20 8
          "123456").1.oauth_linking_sessions.map LinkingSession.id) =
        (_expire_linking_session c4DB 10 8
          "max_attempts_exceeded").oauth_linking_sessions.map
          LinkingSession.id ∧
      (∀ t, (verify_email_for_linking
          (_expire_linking_session c4DB 10 8 "max_attempts_exceeded") 20 8
          "123456").1.oauth_linking_sessions.find? (fun x => x.id == 8) =
          some t →
        max_verification_attempts ≤ t.email_verification_attempts)) :=
  ⟨C4_email_attempt_limit.1 c4DB 10 8 c4Session "999999" (by decide)
      (by decide) (by decide),
   C4_email_attempt_limit.2
      (_expire_linking_session c4DB 10 8 "max_attempts_exceeded") 20 8
      (expireLinkingUpd 10 "max_attempts_exceeded" c4Session) "123456"
      (by decide) (by decide) (by decide)⟩

/-! ### Claim C1 — cross-account uniqueness of (provider, subject-id) -/

/-- The uniqueness invariant: no (provider, provider-subject-id) pair is
held by two accounts with different ids. -/
def pairUnique (db : DB) : Prop :=
  ∀ u ∈ db.users, ∀ v ∈ db.users, ∀ (p i : String),
    hasProviderWithId u p i = true → hasProviderWithId v p i = true →
    u.id = v.id

/-- Case analysis of a provider pair held after `linkUpd`: either the user
already held it (ids are preserved), or it is exactly the newly linked
pair on the targeted account. -/
theorem hasPair_after_linkUpd (provider : String) (od : OAuthData)
    (now : Nat) (w : User) (p i : String)
    (hp : hasProviderWithId
      (if w.id == uid then linkUpd provider od now w else w) p i = true) :
    hasProviderWithId w p i = true ∨
      (w.id = uid ∧ p = provider ∧ i = od.id) := by
  by_cases hwid : (w.id == uid) = true
  · rw [if_pos hwid] at hp
    simp only [hasProviderWithId, linkUpd] at hp
    by_cases hpp : p = provider
    · subst hpp
      rw [dictGet_dictSet_self] at hp
      exact Or.inr ⟨eq_of_beq hwid, rfl, (eq_of_beq hp).symm⟩
    · rw [dictGet_dictSet_ne _ _ _ _ hpp] at hp
      exact Or.inl hp
  · rw [if_neg hwid] at hp
    exact Or.inl hp

/-- C1: (refusal) on a store satisfying the uniqueness invariant, an
attempt to link a (provider, subject-id) pair already held by a different
account fails with the already-linked-elsewhere refusal — the check takes
no email at all, so this holds regardless of whether any emails match —
and leaves the store untouched; (preservation) `link_oauth_provider`
preserves the uniqueness invariant, so no reachable store ever links one
pair to two accounts; (initiate-time check) `_verify_provider_identity`,
when the provider email matches the caller's account, likewise refuses
with `already_linked_elsewhere` whenever another account with a different
email fingerprint holds the pair. -/
theorem C1_provider_pair_uniqueness :
    (∀ (db : DB) (now uid : Nat) (provider : String) (od : OAuthData)
      (B : User),
      pairUnique db → B ∈ db.users → B.id ≠ uid →
      hasProviderWithId B provider od.id = true →
      link_oauth_provider db now uid provider od =
        (db, .error (wrappedLinkingErr ("Cannot link " ++ provider ++
          " account - already linked to another user")))) ∧
    (∀ (db : DB) (now uid : Nat) (provider : String) (od : OAuthData),
      pairUnique db →
      pairUnique (link_oauth_provider db now uid provider od).1) ∧
    (∀ (salt : String) (db : DB) (provider : String) (od : OAuthData)
      (ueh : Sha256Digest) (pe : String),
      od.email = some pe → pe ≠ "" → hash_email salt pe = ueh →
      (∃ B ∈ db.users, hasProviderWithId B provider od.id = true ∧
        B.email_hash ≠ ueh) →
      _verify_provider_identity salt db provider od ueh =
        .alreadyLinkedElsewhere) := by
  refine ⟨?_, ?_, ?_⟩
  · intro db now uid provider od B huniq hB hBid hBpair
    have hcan : can_link_provider db uid provider od.id = false := by
      unfold can_link_provider
      cases hfu : db.users.find? (fun u => u.id == uid) with
      | none => rfl
      | some A =>
          dsimp only
          have hAmem := List.mem_of_find?_eq_some hfu
          have hAid : A.id = uid := by simpa using List.find?_some hfu
          cases hdg : dictGet A.oauth_providers provider with
          | some link =>
              dsimp only
              rw [beq_eq_false_iff_ne]
              intro hli
              have hApair : hasProviderWithId A provider od.id = true := by
                simp [hasProviderWithId, hdg, hli]
              exact hBid (huniq B hB A hAmem provider od.id hBpair hApair ▸
                hAid)
          | none =>
              dsimp only
              have hsome :
                  (db.users.find?
                    (fun u => hasProviderWithId u provider od.id)).isSome
                    = true := by
                rw [List.find?_isSome]
                exact ⟨B, hB, hBpair⟩
              obtain ⟨x, hx⟩ := Option.isSome_iff_exists.mp hsome
              rw [hx]
              rfl
    simp [link_oauth_provider, hcan]
  · intro db now uid provider od huniq
    by_cases hcan : can_link_provider db uid provider od.id = true
    · have hres : (link_oauth_provider db now uid provider od).1.users =
          updateById User.id uid (linkUpd provider od now) db.users := by
        simp [link_oauth_provider, hcan]
      intro u' hu' v' hv' p i hup hvp
      rw [hres] at hu' hv'
      simp only [updateById, List.mem_map] at hu' hv'
      obtain ⟨u, hu, rfl⟩ := hu'
      obtain ⟨v, hv, rfl⟩ := hv'
      have hid : ∀ w : User,
          (if w.id == uid then linkUpd provider od now w else w).id =
            w.id := by
        intro w
        by_cases h : (w.id == uid) = true
        · rw [if_pos h]
          rfl
        · rw [if_neg h]
      rw [hid u, hid v]
      rcases hasPair_after_linkUpd provider od now u p i hup with hu1 | hu1 <;>
        rcases hasPair_after_linkUpd provider od now v p i hvp with hv1 | hv1
      · exact huniq u hu v hv p i hu1 hv1
      · -- v carries the new link, u held the pair before
        obtain ⟨hvid, hpp, hii⟩ := hv1
        rw [hpp, hii] at hu1
        rw [hvid]
        unfold can_link_provider at hcan
        cases hfu : db.users.find? (fun x => x.id == uid) with
        | none => rw [hfu] at hcan; simp at hcan
        | some A =>
            rw [hfu] at hcan
            dsimp only at hcan
            have hAmem := List.mem_of_find?_eq_some hfu
            have hAid : A.id = uid := by simpa using List.find?_some hfu
            cases hdg : dictGet A.oauth_providers provider with
            | some link =>
                rw [hdg] at hcan
                have hApair : hasProviderWithId A provider od.id = true := by
                  simp [hasProviderWithId, hdg, eq_of_beq hcan]
                rw [← hAid]
                exact huniq u hu A hAmem provider od.id hu1 hApair
            | none =>
                rw [hdg] at hcan
                have hnone := Option.isNone_iff_eq_none.mp hcan
                exact absurd hu1 ((List.find?_eq_none.mp hnone) u hu)
      · -- u carries the new link, v held the pair before
        obtain ⟨huid, hpp, hii⟩ := hu1
        rw [hpp, hii] at hv1
        rw [huid]
        unfold can_link_provider at hcan
        cases hfu : db.users.find? (fun x => x.id == uid) with
        | none => rw [hfu] at hcan; simp at hcan
        | some A =>
            rw [hfu] at hcan
            dsimp only at hcan
            have hAmem := List.mem_of_find?_eq_some hfu
            have hAid : A.id = uid := by simpa using List.find?_some hfu
            cases hdg : dictGet A.oauth_providers provider with
            | some link =>
                rw [hdg] at hcan
                have hApair : hasProviderWithId A provider od.id = true := by
                  simp [hasProviderWithId, hdg, eq_of_beq hcan]
                rw [← hAid]
                exact (huniq v hv A hAmem provider od.id hv1 hApair).symm
            | none =>
                rw [hdg] at hcan
                have hnone := Option.isNone_iff_eq_none.mp hcan
                exact absurd hv1 ((List.find?_eq_none.mp hnone) v hv)
      · obtain ⟨huid, _, _⟩ := hu1
        obtain ⟨hvid, _, _⟩ := hv1
        rw [huid, hvid]
    · have hcan2 : can_link_provider db uid provider od.id = false := by
        revert hcan
        cases can_link_provider db uid provider od.id <;> simp
      have hres : (link_oauth_provider db now uid provider od).1 = db := by
        simp [link_oauth_provider, hcan2]
      rw [hres]
      exact huniq
  · intro salt db provider od ueh pe hemail hpe hhash hex
    simp only [_verify_provider_identity, hemail]
    rw [if_neg (by simpa using hpe), if_neg (by simp [hhash])]
    have hsome : (db.users.find? (fun u =>
        hasProviderWithId u provider od.id &&
          decide (u.email_hash ≠ ueh))).isSome = true := by
      rw [List.find?_isSome]
      obtain ⟨B, hB, hBp, hBh⟩ := hex
      exact ⟨B, hB, by simp [hBp, hBh]⟩
    rw [if_pos hsome]

/-- The account of the C1 witness: id 2, holding the Google subject id
`g-42`. -/
def c1User : User :=
  { id := 2, email_hash := sha256Hex "stored-fingerprint",
    password := none,
    oauth_providers := [("google", ⟨⟨"g-42", some "b@x.example"⟩, 0⟩)],
    login_methods := ["google"] }

/-- The store of the C1 witness. -/
def c1DB : DB := { users := [c1User], oauth_sessions := [],
                   oauth_linking_sessions := [] }

/-- C1 witness: account 1 (a different account) cannot take over the pair
(google, g-42) held by account 2 — the attempt fails with the
already-linked refusal and changes nothing, the invariant is preserved,
and the initiate-time identity check also refuses. -/
theorem C1_provider_pair_uniqueness_witness :
    link_oauth_provider c1DB 5 1 "google" ⟨"g-42", some "x@y.example"⟩ =
      (c1DB, .error (wrappedLinkingErr ("Cannot link " ++ "google" ++
        " account - already linked to another user"))) ∧
    pairUnique (link_oauth_provider c1DB 5 1 "google"
      ⟨"g-42", some "x@y.example"⟩).1 ∧
    _verify_provider_identity "salt" c1DB "google"
      ⟨"g-42", some "a@x.example"⟩ (hash_email "salt" "a@x.example") =
      .alreadyLinkedElsewhere :=
  have huniq : pairUnique c1DB := by
    intro u hu v hv p i _ _
    simp only [c1DB, List.mem_singleton] at hu hv
    rw [hu, hv]
  ⟨C1_provider_pair_uniqueness.1 c1DB 5 1 "google"
      ⟨"g-42", some "x@y.example"⟩ c1User huniq (by decide) (by decide)
      (by decide),
   C1_provider_pair_uniqueness.2.1 c1DB 5 1 "google"
      ⟨"g-42", some "x@y.example"⟩ huniq,
   C1_provider_pair_uniqueness.2.2 "salt" c1DB "google"
      ⟨"g-42", some "a@x.example"⟩ (hash_email "salt" "a@x.example")
      "a@x.example" rfl (by decide) rfl
      ⟨c1User, by decide, by decide, by decide⟩⟩

/-! ### Claim C3 — session cap of 10 per (user, provider) -/

/-- C3: on a store satisfying the per-pair cap invariant (at most 10
active sessions for the (user, provider) pair — every state reachable
through `create_session` from an empty store satisfies it),
`create_session` never leaves more than 10 active sessions: the new
session is inserted active, and when the pair was already at the cap the
oldest active session (by `created_at`) is revoked with reason
`session_limit_exceeded` before the insert. -/
theorem C3_session_cap
    (db : DB) (now : Nat) (cfg : TokenSecurityConfig) (newId uid : OId)
    (provider pid tok : String) (rtok : Option String) (ein : Nat)
    (scopes : Option (List String))
    (hnodup : (db.oauth_sessions.map Session.id).Nodup)
    (hcap : activeCount db uid provider ≤ max_sessions_per_user) :
    activeCount (create_session db now cfg newId uid provider pid tok rtok
      ein scopes).1 uid provider ≤ max_sessions_per_user ∧
    (create_session db now cfg newId uid provider pid tok rtok ein
      scopes).2 ∈ (create_session db now cfg newId uid provider pid tok
      rtok ein scopes).1.oauth_sessions ∧
    (create_session db now cfg newId uid provider pid tok rtok ein
      scopes).2.is_active = true ∧
    (max_sessions_per_user ≤ activeCount db uid provider →
      ∃ old ∈ db.oauth_sessions, sessionActiveFor uid provider old = true ∧
        (∀ s ∈ db.oauth_sessions, sessionActiveFor uid provider s = true →
          old.created_at ≤ s.created_at) ∧
        revokeUpd now "session_limit_exceeded" old ∈
          (create_session db now cfg newId uid provider pid tok rtok ein
            scopes).1.oauth_sessions) := by
  have hunfold : (create_session db now cfg newId uid provider pid tok rtok
      ein scopes).1.oauth_sessions =
      (_enforce_session_limits db now uid provider).oauth_sessions ++
        [(create_session db now cfg newId uid provider pid tok rtok ein
          scopes).2] := rfl
  have hactive2 : (create_session db now cfg newId uid provider pid tok
      rtok ein scopes).2.is_active = true := rfl
  have hpsdoc : sessionActiveFor uid provider (create_session db now cfg
      newId uid provider pid tok rtok ein scopes).2 = true := by
    simp [create_session, sessionActiveFor, create_secure_token_record]
  have hsdocmem : (create_session db now cfg newId uid provider pid tok
      rtok ein scopes).2 ∈ (create_session db now cfg newId uid provider
      pid tok rtok ein scopes).1.oauth_sessions := by
    rw [hunfold]
    exact List.mem_append_right _ (List.mem_singleton.mpr rfl)
  by_cases h10 : max_sessions_per_user ≤ activeCount db uid provider
  · have hc : activeCount db uid provider = max_sessions_per_user := by
      omega
    have hne : db.oauth_sessions.filter (sessionActiveFor uid provider)
        ≠ [] := by
      have hpos : 0 < (db.oauth_sessions.filter
          (sessionActiveFor uid provider)).length := by
        have := h10
        rw [activeCount] at this
        simp only [max_sessions_per_user] at this
        omega
      exact List.ne_nil_of_length_pos hpos
    obtain ⟨old, hfo, holdmem, hmin⟩ := findOldest_min _ hne
    obtain ⟨holdl, hpold⟩ := List.mem_filter.mp holdmem
    have hfindold := find?_id_eq_of_mem Session.id old.id db.oauth_sessions
      hnodup old holdl rfl
    have henf : (_enforce_session_limits db now uid
        provider).oauth_sessions =
        updateById Session.id old.id
          (revokeUpd now "session_limit_exceeded") db.oauth_sessions := by
      simp only [_enforce_session_limits]
      rw [if_pos h10, hfo]
      simp only [revoke_session, hfindold]
      by_cases hm : updModified Session.id old.id
          (revokeUpd now "session_limit_exceeded") db.oauth_sessions = true
      · rw [if_pos hm]
      · rw [if_neg hm]
    have hflip := length_filter_flip Session.id db.oauth_sessions hnodup
      old holdl (sessionActiveFor uid provider)
      (fun x => sessionActiveFor uid provider
        (if x.id == old.id then revokeUpd now "session_limit_exceeded" x
          else x))
      (by
        intro b hb hbne
        dsimp only
        rw [if_neg (by simpa using hbne)])
      (by
        intro b hb hbeq
        have hbold : b = old :=
          List.inj_on_of_nodup_map hnodup hb holdl hbeq
        subst hbold
        refine ⟨hpold, ?_⟩
        dsimp only
        rw [if_pos (by simp)]
        simp [sessionActiveFor, revokeUpd])
    have hcount : activeCount (create_session db now cfg newId uid provider
        pid tok rtok ein scopes).1 uid provider =
        activeCount db uid provider := by
      simp only [activeCount]
      rw [hunfold, henf, List.filter_append, List.length_append,
        filter_updateById]
      simp only [List.filter_cons, hpsdoc, if_true, List.filter_nil,
        List.length_cons, List.length_nil]
      omega
    refine ⟨by omega, hsdocmem, hactive2, ?_⟩
    intro _
    refine ⟨old, holdl, hpold, ?_, ?_⟩
    · intro s hs hps
      exact hmin s (List.mem_filter.mpr ⟨hs, hps⟩)
    · rw [hunfold, henf]
      exact List.mem_append_left _
        (mem_updateById_self Session.id old.id _ _ old holdl rfl)
  · have henf : _enforce_session_limits db now uid provider = db := by
      simp only [_enforce_session_limits]
      rw [if_neg h10]
    have hcount : activeCount (create_session db now cfg newId uid provider
        pid tok rtok ein scopes).1 uid provider =
        activeCount db uid provider + 1 := by
      simp only [activeCount]
      rw [hunfold, henf, List.filter_append, List.length_append]
      simp only [List.filter_cons, hpsdoc, List.filter_nil]
      simp
    refine ⟨?_, hsdocmem, hactive2, fun h => absurd h h10⟩
    simp only [max_sessions_per_user] at h10 hcap ⊢
    omega

/-- The ten active sessions of the C3 witness (ids 1–10, created at times
1–10) plus one inactive session (id 11). -/
def c3Session (i : Nat) : Session :=
  { id := i, user_id := 7, provider := "google", provider_user_id := "g-1",
    access_token_hash := hmacSha256 "k" "t", refresh_token_hash := none,
    expires_at := 5000, created_at := i, last_used := i, scopes := [],
    is_active := i ≤ 10 }

/-- The store of the C3 witness: exactly 10 active sessions for
(user 7, google). -/
def c3DB : DB :=
  { users := [], oauth_sessions := (List.range 11).map
      (fun i => c3Session (i + 1)), oauth_linking_sessions := [] }

/-- C3 witness: creating an 11th session on a store already holding 10
active sessions for the pair leaves at most 10 active, inserts the new
session active, and revokes the oldest (id 1, created at 1) with reason
`session_limit_exceeded`. -/
theorem C3_session_cap_witness :
    activeCount (create_session c3DB 100 ⟨"s", "l"⟩ 12 7 "google" "g-1"
      "tok" none 3600 none).1 7 "google" ≤ max_sessions_per_user ∧
    (create_session c3DB 100 ⟨"s", "l"⟩ 12 7 "google" "g-1" "tok" none
      3600 none).2 ∈ (create_session c3DB 100 ⟨"s", "l"⟩ 12 7 "google"
      "g-1" "tok" none 3600 none).1.oauth_sessions ∧
    (create_session c3DB 100 ⟨"s", "l"⟩ 12 7 "google" "g-1" "tok" none
      3600 none).2.is_active = true ∧
    (max_sessions_per_user ≤ activeCount c3DB 7 "google" →
      ∃ old ∈ c3DB.oauth_sessions,
        sessionActiveFor 7 "google" old = true ∧
        (∀ s ∈ c3DB.oauth_sessions, sessionActiveFor 7 "google" s = true →
          old.created_at ≤ s.created_at) ∧
        revokeUpd 100 "session_limit_exceeded" old ∈
          (create_session c3DB 100 ⟨"s", "l"⟩ 12 7 "google" "g-1" "tok"
            none 3600 none).1.oauth_sessions) :=
  C3_session_cap c3DB 100 ⟨"s", "l"⟩ 12 7 "google" "g-1" "tok" none 3600
    none (by decide) (by decide)

end CareerMate
